import Mathlib

set_option maxRecDepth 100000

/-!
Shallow embedding of the battleship matchmaking/battle server (`src/server.js`).

Pure-data model of the server's mutable state and of the four inbound event
handlers (`join_queue`, `player_ready`, `fire`, `disconnect`).  JavaScript
objects used as dictionaries (`shotsFired`, `ships`, `games`) are modelled as
association lists with overwrite-on-existing-key and append-on-fresh-key
semantics, matching property assignment on a JS object; out-of-range array
indexing that would make the JS code throw a `TypeError` is modelled as an
explicit `thrown` effect.
-/

namespace Battleship

/-- The two sides of a session, `'p1'` and `'p2'` in the source. -/
inductive Side where
  | p1
  | p2
deriving DecidableEq, Repr

/-- `slot === 'p1' ? 'p2' : 'p1'` (`server.js:80`, `server.js:109`). -/
def Side.opp : Side → Side
  | .p1 => .p2
  | .p2 => .p1

/-- Session phase: `'placement' | 'battle' | 'finished'` (`server.js:25`). -/
inductive Phase where
  | placement
  | battle
  | finished
deriving DecidableEq, Repr

/-- A shot outcome recorded in `shotsFired`: `'miss' | 'hit' | 'sunk'`. -/
inductive Outcome where
  | miss
  | hit
  | sunk
deriving DecidableEq, Repr

/-- The `type` field of a log entry: a result type or `'system'`. -/
inductive LogType where
  | system
  | miss
  | hit
  | sunk
deriving DecidableEq, Repr

/-- The log `type` string used for a shot entry is the result type itself
(`server.js:148`). -/
def logTypeOf : Outcome → LogType
  | .miss => .miss
  | .hit => .hit
  | .sunk => .sunk

/-- One entry of a session's event log: `{ type, text }`. -/
structure LogEntry where
  type : LogType
  text : String
deriving DecidableEq, Repr

/-- Lookup in a JS object used as a dictionary (`obj[key]`). -/
def assocLookup {κ α : Type} [DecidableEq κ] : List (κ × α) → κ → Option α
  | [], _ => none
  | (k, v) :: rest, key => if k = key then some v else assocLookup rest key

/-- Assignment on a JS object used as a dictionary (`obj[key] = v`):
overwrite the existing entry, or append a fresh one. -/
def assocSet {κ α : Type} [DecidableEq κ] : List (κ × α) → κ → α → List (κ × α)
  | [], key, v => [(key, v)]
  | (k, w) :: rest, key, v =>
      if k = key then (k, v) :: rest else (k, w) :: assocSet rest key v

/-- JS array indexing `xs[i]` for an `Int` index: `undefined` (here `none`)
when the index is negative or past the end. -/
def listGetI {α : Type} (xs : List α) (i : Int) : Option α :=
  if i < 0 then none else xs.get? i.toNat

/-- `xs.slice(-n)`: the last `n` elements (the whole list when shorter). -/
def sliceLast {α : Type} (n : Nat) (xs : List α) : List α :=
  xs.drop (xs.length - n)

/-- A board is a grid of cell values: `0` for water, a nonzero ship id
otherwise (JS truthiness of `cellValue`, `server.js:117`). -/
abbrev Board := List (List Nat)

/-- A ship layout: ship id to the list of its cells (`ships[shipId]`). -/
abbrev Ships := List (Nat × List (Int × Int))

/-- A shot record: fired-at coordinate to recorded outcome (`shotsFired`). -/
abbrev ShotRec := List ((Int × Int) × Outcome)

/-- One side of a session (`game.p1` / `game.p2`, `server.js:22-23`).
`board` and `ships` start as `null` (`none`) and are filled by
`player_ready`. -/
structure SideState where
  id : String
  name : String
  board : Option Board
  ships : Option Ships
  ready : Bool
  shotsFired : ShotRec
deriving DecidableEq, Repr

/-- A session (`games[gameId]`, `server.js:20-29`). -/
structure Game where
  id : String
  p1 : SideState
  p2 : SideState
  turn : Side
  phase : Phase
  winner : Option Side
  log : List LogEntry
  totalCells : Nat
deriving DecidableEq, Repr

/-- `game[slot]`. -/
def Game.side (g : Game) : Side → SideState
  | .p1 => g.p1
  | .p2 => g.p2

/-- `game[slot] = s` (field update on the session object). -/
def Game.setSide (g : Game) : Side → SideState → Game
  | .p1, s => { g with p1 := s }
  | .p2, s => { g with p2 := s }

/-- The column alphabet `'АБВГДЕЖЗИК'` (`server.js:118`). -/
def cols : List Char := ['А', 'Б', 'В', 'Г', 'Д', 'Е', 'Ж', 'З', 'И', 'К']

/-- `cols[c]` as a string; JS yields `undefined` out of range, which
stringifies as `"undefined"` when concatenated. -/
def colLabel (c : Int) : String :=
  match listGetI cols c with
  | some ch => String.mk [ch]
  | none => "undefined"

/-- `cols[c] + (r + 1)` (`server.js:119`). -/
def coordLabel (r c : Int) : String :=
  colLabel c ++ toString (r + 1)

/-- The payload of the `shot_result` broadcast (`server.js:163-172`). -/
structure ShotResult where
  shooter : Side
  r : Int
  c : Int
  resultType : Outcome
  affectedCells : List (Int × Int)
  turn : Side
  phase : Phase
  winner : Option Side
  log : List LogEntry
deriving DecidableEq, Repr

/-- What the `fire` handler does besides mutating the session. -/
inductive FireEffect where
  | wrongPhase
  | notYourTurn
  | alreadyShot
  | thrown
  | broadcast (res : ShotResult)
deriving DecidableEq, Repr

/-- `affectedCells.forEach(([sr, sc]) => { shotsFired[sr+','+sc] = resultType })`
(`server.js:144-146`). -/
def recordShots (rec : ShotRec) (rt : Outcome) (ac : List (Int × Int)) : ShotRec :=
  ac.foldl (fun acc cell => assocSet acc cell rt) rec

/-- `Object.values(shotsFired).filter(v => v === 'hit' || v === 'sunk').length`
(`server.js:155`). -/
def countHitSunk (rec : ShotRec) : Nat :=
  (rec.filter fun kv => kv.2 = Outcome.hit ∨ kv.2 = Outcome.sunk).length

/-- `shipCells.filter(([sr, sc]) => shotsFired[sr+','+sc]).length`
(`server.js:129`). -/
def prevOn (rec : ShotRec) (shipCells : List (Int × Int)) : Nat :=
  (shipCells.filter fun cell => (assocLookup rec cell).isSome).length

/-- The tail of the `fire` handler after the result type, affected cells
and log text are fixed (`server.js:143-160`): record the shots, append and
cap the log, switch the turn on a miss, run the win check. -/
def resolveGame (g : Game) (slot : Side) (rt : Outcome)
    (ac : List (Int × Int)) (lt : String) : Game :=
  let shots1 := recordShots (g.side slot).shotsFired rt ac
  let g1 := g.setSide slot { g.side slot with shotsFired := shots1 }
  let log1 := g1.log ++ [⟨logTypeOf rt, lt⟩]
  let log2 := if 50 < log1.length then sliceLast 50 log1 else log1
  let g2 := { g1 with log := log2 }
  let g3 := if rt = Outcome.miss then { g2 with turn := slot.opp } else g2
  if g.totalCells ≤ countHitSunk shots1 then
    { g3 with
      phase := Phase.finished
      winner := some slot
      log := g3.log ++ [⟨LogType.system, "🏆 " ++ (g.side slot).name ++ " ПОБЕДИЛ!"⟩] }
  else g3

/-- Resolution plus the `shot_result` broadcast (`server.js:143-172`). -/
def resolveShot (g : Game) (slot : Side) (r c : Int) (rt : Outcome)
    (ac : List (Int × Int)) (lt : String) : Game × FireEffect :=
  let g4 := resolveGame g slot rt ac lt
  (g4, .broadcast
    { shooter := slot, r := r, c := c, resultType := rt, affectedCells := ac
      turn := g4.turn, phase := g4.phase, winner := g4.winner
      log := sliceLast 10 g4.log })

/-- The `fire` handler body once the session is resolved (`server.js:97-173`).
Returns the new session state and the produced effect; every non-`broadcast`
effect leaves the state unchanged.  `thrown` marks the places where the JS
code would throw a `TypeError` (indexing `undefined`/`null`, or calling
`.filter` on `undefined`), all of which happen before any mutation. -/
def fire (g : Game) (slot : Side) (r c : Int) : Game × FireEffect :=
  if g.phase ≠ Phase.battle then (g, .wrongPhase)
  else if g.turn ≠ slot then (g, .notYourTurn)
  else if (assocLookup (g.side slot).shotsFired (r, c)).isSome then (g, .alreadyShot)
  else
    match (g.side slot.opp).board with
    | none => (g, .thrown)
    | some opponentBoard =>
      match listGetI opponentBoard r with
      | none => (g, .thrown)
      | some row =>
        if (listGetI row c).getD 0 ≠ 0 then
          match (g.side slot.opp).ships with
          | none => (g, .thrown)
          | some opponentShips =>
            match assocLookup opponentShips ((listGetI row c).getD 0) with
            | none => (g, .thrown)
            | some shipCells =>
              if shipCells.length ≤ prevOn (g.side slot).shotsFired shipCells + 1 then
                resolveShot g slot r c Outcome.sunk shipCells
                  ("💥 " ++ (g.side slot).name ++ " потопил корабль! (" ++ coordLabel r c ++ ")")
              else
                resolveShot g slot r c Outcome.hit [(r, c)]
                  ("🎯 " ++ (g.side slot).name ++ " попал! (" ++ coordLabel r c ++ ")")
        else
          resolveShot g slot r c Outcome.miss [(r, c)]
            ("💦 " ++ (g.side slot).name ++ " промахнулся (" ++ coordLabel r c ++ ")")

/-- Effect of the `player_ready` handler. -/
inductive ReadyEffect where
  | battleStart (turn : Side) (log : List LogEntry)
  | waitingForOpponentReady
deriving DecidableEq, Repr

/-- The `player_ready` handler body once the session is resolved
(`server.js:70-94`): store board/ships, mark ready, and start the battle
when the opposite side is already ready.  Note the source has no phase
guard. -/
def playerReady (g : Game) (slot : Side) (board : Board) (ships : Ships) :
    Game × ReadyEffect :=
  let g1 := g.setSide slot
    { g.side slot with board := some board, ships := some ships, ready := true }
  if (g1.side slot.opp).ready then
    let g2 := { g1 with
      phase := Phase.battle
      log := g1.log ++ [⟨LogType.system, "БОЙ НАЧАЛСЯ!"⟩] }
    (g2, .battleStart g2.turn g2.log)
  else (g1, .waitingForOpponentReady)

/-- A queued/connected participant (`waitingPlayer`, `server.js:15`). -/
structure Player where
  id : String
  name : String
deriving DecidableEq, Repr

/-- Process-wide server state: the waiting slot, the session registry,
the per-socket `gameId`/`slot` bindings, and the pending cleanup timers
(gameId with the `setTimeout` delay in milliseconds). -/
structure ServerState where
  waitingPlayer : Option Player
  games : List (String × Game)
  bindings : List (String × (String × Side))
  cleanups : List (String × Nat)
deriving DecidableEq, Repr

/-- `createGame(p1, p2)` (`server.js:18-44`): register the session and bind
both sockets to it; the previously waiting participant is `p1`. -/
def createGame (s : ServerState) (a b : Player) : ServerState :=
  let gameId := a.id ++ "_" ++ b.id
  let game : Game :=
    { id := gameId
      p1 := { id := a.id, name := a.name, board := none, ships := none,
              ready := false, shotsFired := [] }
      p2 := { id := b.id, name := b.name, board := none, ships := none,
              ready := false, shotsFired := [] }
      turn := Side.p1
      phase := Phase.placement
      winner := none
      log := []
      totalCells := 20 }
  { s with
    games := assocSet s.games gameId game
    bindings := assocSet (assocSet s.bindings a.id (gameId, Side.p1))
      b.id (gameId, Side.p2) }

/-- Effect of the `join_queue` handler. -/
inductive JoinEffect where
  | waiting (position : Nat)
  | gameFound (gameId p1Name p2Name : String)
deriving DecidableEq, Repr

/-- The `join_queue` handler (`server.js:50-67`). -/
def joinQueue (s : ServerState) (socketId name : String) :
    ServerState × JoinEffect :=
  match s.waitingPlayer with
  | some w =>
    if w.id ≠ socketId then
      let s1 := createGame { s with waitingPlayer := none } w ⟨socketId, name⟩
      (s1, .gameFound (w.id ++ "_" ++ socketId) w.name name)
    else
      ({ s with waitingPlayer := some ⟨socketId, name⟩ }, .waiting 1)
  | none => ({ s with waitingPlayer := some ⟨socketId, name⟩ }, .waiting 1)

/-- First statement of the `disconnect` handler (`server.js:180-182`):
clear the waiting slot if this socket occupied it. -/
def clearOwnWaiting (s : ServerState) (socketId : String) : ServerState :=
  match s.waitingPlayer with
  | some w => if w.id = socketId then { s with waitingPlayer := none } else s
  | none => s

/-- The `disconnect` handler (`server.js:176-195`): clear the waiting slot
if this socket occupied it; if the socket is bound to a registered session,
force a non-`finished` session to `finished` and always schedule the 60000 ms
cleanup. -/
def disconnect (s : ServerState) (socketId : String) : ServerState :=
  let s1 := clearOwnWaiting s socketId
  match assocLookup s1.bindings socketId with
  | none => s1
  | some (gameId, _) =>
    match assocLookup s1.games gameId with
    | none => s1
    | some game =>
      let games1 :=
        if game.phase ≠ Phase.finished then
          assocSet s1.games gameId { game with phase := Phase.finished }
        else s1.games
      { s1 with games := games1, cleanups := s1.cleanups ++ [(gameId, 60000)] }

/-- An inbound event, identified by the emitting socket. -/
inductive Event where
  | join (socketId name : String)
  | ready (socketId : String) (board : Board) (ships : Ships)
  | fireAt (socketId : String) (r c : Int)
  | disc (socketId : String)

/-- One server step: dispatch an event to its handler, resolving the
session through the socket bindings as the source does via
`socket.gameId` / `socket.slot` (`server.js:71-73`, `server.js:98-100`). -/
def step (s : ServerState) (e : Event) : ServerState :=
  match e with
  | .join sid name => (joinQueue s sid name).1
  | .ready sid board ships =>
    match assocLookup s.bindings sid with
    | none => s
    | some (gameId, slot) =>
      match assocLookup s.games gameId with
      | none => s
      | some g =>
        { s with games := assocSet s.games gameId (playerReady g slot board ships).1 }
  | .fireAt sid r c =>
    match assocLookup s.bindings sid with
    | none => s
    | some (gameId, slot) =>
      match assocLookup s.games gameId with
      | none => s
      | some g =>
        { s with games := assocSet s.games gameId (fire g slot r c).1 }
  | .disc sid => disconnect s sid

/-- The empty initial server state (`server.js:15-16`). -/
def s0 : ServerState := ⟨none, [], [], []⟩

/-- Run a sequence of inbound events from a state. -/
def run (s : ServerState) (es : List Event) : ServerState :=
  es.foldl step s

/-! ### Concrete data: a legal standard-fleet placement and event traces -/

/-- A 10×10 board carrying the standard fleet (sizes 4,3,3,2,2,2,1,1,1,1,
20 occupied cells, ship ids 1..10). -/
def board1 : Board :=
  [ [1, 1, 1, 1, 0, 2, 2, 2, 0, 0]
  , [0, 0, 0, 0, 0, 0, 0, 0, 0, 0]
  , [3, 3, 3, 0, 4, 4, 0, 5, 5, 0]
  , [0, 0, 0, 0, 0, 0, 0, 0, 0, 0]
  , [6, 6, 0, 7, 0, 8, 0, 9, 0, 10]
  , [0, 0, 0, 0, 0, 0, 0, 0, 0, 0]
  , [0, 0, 0, 0, 0, 0, 0, 0, 0, 0]
  , [0, 0, 0, 0, 0, 0, 0, 0, 0, 0]
  , [0, 0, 0, 0, 0, 0, 0, 0, 0, 0]
  , [0, 0, 0, 0, 0, 0, 0, 0, 0, 0] ]

/-- The ship layout matching `board1`. -/
def ships1 : Ships :=
  [ (1, [(0, 0), (0, 1), (0, 2), (0, 3)])
  , (2, [(0, 5), (0, 6), (0, 7)])
  , (3, [(2, 0), (2, 1), (2, 2)])
  , (4, [(2, 4), (2, 5)])
  , (5, [(2, 7), (2, 8)])
  , (6, [(4, 0), (4, 1)])
  , (7, [(4, 3)])
  , (8, [(4, 5)])
  , (9, [(4, 7)])
  , (10, [(4, 9)]) ]

/-- Two players join and both submit `board1`; the session `"a_b"` reaches
phase `battle` with turn `p1`. -/
def setupTrace : List Event :=
  [ Event.join "a" "A"
  , Event.join "b" "B"
  , Event.ready "a" board1 ships1
  , Event.ready "b" board1 ships1 ]

/-- Thirty alternating misses (fifteen per side) at empty cells. -/
def missTrade : List Event :=
  [ Event.fireAt "a" 6 0, Event.fireAt "b" 8 0
  , Event.fireAt "a" 6 1, Event.fireAt "b" 8 1
  , Event.fireAt "a" 6 2, Event.fireAt "b" 8 2
  , Event.fireAt "a" 6 3, Event.fireAt "b" 8 3
  , Event.fireAt "a" 6 4, Event.fireAt "b" 8 4
  , Event.fireAt "a" 6 5, Event.fireAt "b" 8 5
  , Event.fireAt "a" 6 6, Event.fireAt "b" 8 6
  , Event.fireAt "a" 6 7, Event.fireAt "b" 8 7
  , Event.fireAt "a" 6 8, Event.fireAt "b" 8 8
  , Event.fireAt "a" 6 9, Event.fireAt "b" 8 9
  , Event.fireAt "a" 7 0, Event.fireAt "b" 9 0
  , Event.fireAt "a" 7 1, Event.fireAt "b" 9 1
  , Event.fireAt "a" 7 2, Event.fireAt "b" 9 2
  , Event.fireAt "a" 7 3, Event.fireAt "b" 9 3
  , Event.fireAt "a" 7 4, Event.fireAt "b" 9 4 ]

/-- Side `a` shoots every one of `b`'s twenty fleet cells in order; each
shot is a hit or a sunk, so `a` keeps the turn throughout and the last
shot wins. -/
def sweep : List Event :=
  [ Event.fireAt "a" 0 0, Event.fireAt "a" 0 1
  , Event.fireAt "a" 0 2, Event.fireAt "a" 0 3
  , Event.fireAt "a" 0 5, Event.fireAt "a" 0 6, Event.fireAt "a" 0 7
  , Event.fireAt "a" 2 0, Event.fireAt "a" 2 1, Event.fireAt "a" 2 2
  , Event.fireAt "a" 2 4, Event.fireAt "a" 2 5
  , Event.fireAt "a" 2 7, Event.fireAt "a" 2 8
  , Event.fireAt "a" 4 0, Event.fireAt "a" 4 1
  , Event.fireAt "a" 4 3, Event.fireAt "a" 4 5
  , Event.fireAt "a" 4 7, Event.fireAt "a" 4 9 ]

/-- A full game: setup, thirty traded misses, then `a` sweeps the fleet.
The winning shot is the 50th accepted fire. -/
def winTrace : List Event := setupTrace ++ missTrade ++ sweep

/-- A mid-battle session between `x` and `y`, both fleets placed, no shots
fired yet, `p1` to act. -/
def gW : Game :=
  { id := "x_y"
    p1 := ⟨"x", "X", some board1, some ships1, true, []⟩
    p2 := ⟨"y", "Y", some board1, some ships1, true, []⟩
    turn := Side.p1
    phase := Phase.battle
    winner := none
    log := []
    totalCells := 20 }

/-- Nineteen recorded hits: every fleet cell of `board1` except `(4, 9)`. -/
def recW : ShotRec :=
  [ ((0, 0), Outcome.hit), ((0, 1), Outcome.hit), ((0, 2), Outcome.hit)
  , ((0, 3), Outcome.hit), ((0, 5), Outcome.hit), ((0, 6), Outcome.hit)
  , ((0, 7), Outcome.hit), ((2, 0), Outcome.hit), ((2, 1), Outcome.hit)
  , ((2, 2), Outcome.hit), ((2, 4), Outcome.hit), ((2, 5), Outcome.hit)
  , ((2, 7), Outcome.hit), ((2, 8), Outcome.hit), ((4, 0), Outcome.hit)
  , ((4, 1), Outcome.hit), ((4, 3), Outcome.hit), ((4, 5), Outcome.hit)
  , ((4, 7), Outcome.hit) ]

/-- `gW` one shot away from victory for `p1`. -/
def gWin : Game := { gW with p1 := { gW.p1 with shotsFired := recW } }

/-- `gW` after `p1` already fired at `(5, 5)`. -/
def gDup : Game :=
  { gW with p1 := { gW.p1 with shotsFired := [((5, 5), Outcome.miss)] } }

/-- `gW` after `p1` hit `(2, 4)`, one cell of the two-cell ship `4`. -/
def gHalf : Game :=
  { gW with p1 := { gW.p1 with shotsFired := [((2, 4), Outcome.hit)] } }

/-- `gW` still in placement phase. -/
def gPlace : Game := { gW with phase := Phase.placement }

/-- Extract the broadcast payload of a `fire` invocation. -/
def resOf (p : Game × FireEffect) : ShotResult :=
  match p.2 with
  | .broadcast res => res
  | _ => ⟨Side.p1, 0, 0, Outcome.miss, [], Side.p1, Phase.placement, none, []⟩

/-- Placeholder session used as the default of `gameOf`. -/
def noGame : Game :=
  { id := ""
    p1 := ⟨"", "", none, none, false, []⟩
    p2 := ⟨"", "", none, none, false, []⟩
    turn := Side.p1
    phase := Phase.placement
    winner := none
    log := []
    totalCells := 20 }

/-- The registered session with the given id (or `noGame`). -/
def gameOf (s : ServerState) (gid : String) : Game :=
  (assocLookup s.games gid).getD noGame

/-- Decidable consistency of a client-submitted placement at the fired
cell: if the opponent board holds a nonzero ship id there whose layout
entry is `S`, then `(r, c)` is one of `S`'s cells, `S` has no duplicate
cells, and no `S`-cell carries a recorded `miss` in the firing side's
record.  Any placement where boards and ship layouts agree satisfies this;
the server trusts the client for it. -/
def shipOk (g : Game) (slot : Side) (r c : Int) : Bool :=
  match (g.side slot.opp).board with
  | none => true
  | some ob =>
    match listGetI ob r with
    | none => true
    | some row =>
      match (g.side slot.opp).ships with
      | none => true
      | some shps =>
        match assocLookup shps ((listGetI row c).getD 0) with
        | none => true
        | some S =>
          decide ((listGetI row c).getD 0 = 0) ||
            (decide ((r, c) ∈ S) && decide S.Nodup &&
             S.all fun p =>
               decide (assocLookup (g.side slot).shotsFired p ≠ some Outcome.miss))

/-! ### Helper lemmas: sides, association lists, shot records -/

theorem Side.opp_ne (s : Side) : s.opp ≠ s := by cases s <;> simp [Side.opp]

@[simp]
theorem side_setSide_self (g : Game) (slot : Side) (s : SideState) :
    (g.setSide slot s).side slot = s := by cases slot <;> rfl

@[simp]
theorem side_setSide_opp (g : Game) (slot : Side) (s : SideState) :
    (g.setSide slot s).side slot.opp = g.side slot.opp := by cases slot <;> rfl

@[simp]
theorem setSide_turn (g : Game) (slot : Side) (s : SideState) :
    (g.setSide slot s).turn = g.turn := by cases slot <;> rfl

@[simp]
theorem setSide_phase (g : Game) (slot : Side) (s : SideState) :
    (g.setSide slot s).phase = g.phase := by cases slot <;> rfl

@[simp]
theorem setSide_winner (g : Game) (slot : Side) (s : SideState) :
    (g.setSide slot s).winner = g.winner := by cases slot <;> rfl

@[simp]
theorem setSide_log (g : Game) (slot : Side) (s : SideState) :
    (g.setSide slot s).log = g.log := by cases slot <;> rfl

@[simp]
theorem setSide_totalCells (g : Game) (slot : Side) (s : SideState) :
    (g.setSide slot s).totalCells = g.totalCells := by cases slot <;> rfl

theorem assocLookup_set {κ α : Type} [DecidableEq κ] (R : List (κ × α)) (k k' : κ) (v : α) :
    assocLookup (assocSet R k v) k' = if k = k' then some v else assocLookup R k' := by
  induction R with
  | nil => simp [assocSet, assocLookup]
  | cons head rest ih =>
    obtain ⟨a, w⟩ := head
    simp only [assocSet, assocLookup]
    by_cases hak : a = k
    · subst hak
      simp only [if_pos rfl, assocLookup]
      split_ifs <;> simp_all
    · simp only [if_neg hak, assocLookup, ih]
      split_ifs <;> simp_all

theorem assocSet_absent {κ α : Type} [DecidableEq κ] (R : List (κ × α)) (k : κ) (v : α)
    (h : assocLookup R k = none) : assocSet R k v = R ++ [(k, v)] := by
  induction R with
  | nil => rfl
  | cons head rest ih =>
    obtain ⟨a, w⟩ := head
    simp only [assocLookup] at h
    by_cases hak : a = k
    · simp [hak] at h
    · simp only [assocSet, if_neg hak, List.cons_append, List.cons.injEq, true_and]
      exact ih (by simpa [hak] using h)

theorem countHitSunk_append (R S : ShotRec) :
    countHitSunk (R ++ S) = countHitSunk R + countHitSunk S := by
  simp [countHitSunk, List.filter_append]

theorem countHitSunk_set_absent (R : ShotRec) (k : Int × Int) (v : Outcome)
    (h : assocLookup R k = none) :
    countHitSunk (assocSet R k v) =
      countHitSunk R + (if v = Outcome.hit ∨ v = Outcome.sunk then 1 else 0) := by
  rw [assocSet_absent R k v h, countHitSunk_append]
  congr 1
  simp only [countHitSunk, List.filter]
  split_ifs with hv
  · simp [hv]
  · simp [hv]

theorem countHitSunk_set_present (R : ShotRec) (k : Int × Int) (o : Outcome)
    (ho : assocLookup R k = some o) (hhs : o = Outcome.hit ∨ o = Outcome.sunk) :
    countHitSunk (assocSet R k Outcome.sunk) = countHitSunk R := by
  induction R with
  | nil => simp [assocLookup] at ho
  | cons head rest ih =>
    obtain ⟨a, w⟩ := head
    by_cases hak : a = k
    · have hw : w = o := by simpa [assocLookup, hak] using ho
      subst hw
      simp only [assocSet, if_pos hak, countHitSunk, List.filter]
      rcases hhs with h | h <;> subst h <;> simp
    · have ho' : assocLookup rest k = some o := by simpa [assocLookup, hak] using ho
      have hrec := ih ho'
      simp only [assocSet, if_neg hak, countHitSunk, List.filter] at hrec ⊢
      cases hdec : decide (w = Outcome.hit ∨ w = Outcome.sunk) <;>
        simp only [hdec] <;> simpa using hrec

theorem recordShots_cons (R : ShotRec) (v : Outcome) (p : Int × Int)
    (S : List (Int × Int)) :
    recordShots R v (p :: S) = recordShots (assocSet R p v) v S := rfl

theorem recordShots_lookup (S : List (Int × Int)) (R : ShotRec) (v : Outcome)
    (k : Int × Int) :
    assocLookup (recordShots R v S) k = if k ∈ S then some v else assocLookup R k := by
  induction S generalizing R with
  | nil => simp [recordShots]
  | cons p S' ih =>
    rw [recordShots_cons, ih, assocLookup_set]
    by_cases hk : k ∈ S'
    · simp [hk, List.mem_cons]
    · by_cases hkp : p = k
      · subst hkp
        simp [hk, List.mem_cons]
      · have hne : ¬k = p := fun h => hkp h.symm
        simp [hk, hkp, hne, List.mem_cons]

theorem recordShots_count (S : List (Int × Int)) (R : ShotRec)
    (hnd : S.Nodup)
    (hR : ∀ p ∈ S, ∀ o, assocLookup R p = some o → o = Outcome.hit ∨ o = Outcome.sunk) :
    countHitSunk (recordShots R Outcome.sunk S) =
      countHitSunk R + (S.filter fun p => (assocLookup R p).isNone).length := by
  induction S generalizing R with
  | nil => simp [recordShots]
  | cons p S' ih =>
    rw [recordShots_cons]
    obtain ⟨hp, hnd'⟩ := List.nodup_cons.mp hnd
    have hfilter : S'.filter (fun q => (assocLookup (assocSet R p Outcome.sunk) q).isNone)
        = S'.filter (fun q => (assocLookup R q).isNone) := by
      refine List.filter_congr fun q hq => ?_
      have hpq : p ≠ q := fun h => hp (h ▸ hq)
      rw [assocLookup_set, if_neg hpq]
    have hR' : ∀ q ∈ S', ∀ o, assocLookup (assocSet R p Outcome.sunk) q = some o →
        o = Outcome.hit ∨ o = Outcome.sunk := by
      intro q hq o ho
      rw [assocLookup_set] at ho
      by_cases hpq : p = q
      · rw [if_pos hpq] at ho
        exact Or.inr (Option.some.inj ho).symm
      · rw [if_neg hpq] at ho
        exact hR q (List.mem_cons_of_mem _ hq) o ho
    rw [ih (assocSet R p Outcome.sunk) hnd' hR', hfilter]
    cases ho : assocLookup R p with
    | some o =>
      rw [countHitSunk_set_present R p o ho (hR p (List.mem_cons_self _ _) o ho)]
      have hhead : List.filter (fun q => (assocLookup R q).isNone) (p :: S')
          = List.filter (fun q => (assocLookup R q).isNone) S' := by
        simp [List.filter, ho]
      rw [hhead]
    | none =>
      rw [countHitSunk_set_absent R p Outcome.sunk ho]
      have hhead : List.filter (fun q => (assocLookup R q).isNone) (p :: S')
          = p :: List.filter (fun q => (assocLookup R q).isNone) S' := by
        simp [List.filter, ho]
      rw [hhead, List.length_cons]
      simp only [or_true, if_pos]
      omega

/-! ### Structural lemmas about `resolveGame`, `resolveShot` and `fire` -/

theorem sliceLast_length {α : Type} (n : Nat) (xs : List α) :
    (sliceLast n xs).length = xs.length - (xs.length - n) := by
  simp [sliceLast]

theorem resolveGame_turn (g : Game) (slot : Side) (rt : Outcome)
    (ac : List (Int × Int)) (lt : String) :
    (resolveGame g slot rt ac lt).turn = if rt = Outcome.miss then slot.opp else g.turn := by
  simp only [resolveGame]
  split_ifs <;> simp

theorem resolveGame_shots_self (g : Game) (slot : Side) (rt : Outcome)
    (ac : List (Int × Int)) (lt : String) :
    ((resolveGame g slot rt ac lt).side slot).shotsFired
      = recordShots (g.side slot).shotsFired rt ac := by
  simp only [resolveGame]
  split_ifs <;> cases slot <;> simp [Game.side, Game.setSide]

theorem resolveGame_phase (g : Game) (slot : Side) (rt : Outcome)
    (ac : List (Int × Int)) (lt : String) :
    (resolveGame g slot rt ac lt).phase
      = if g.totalCells ≤ countHitSunk (recordShots (g.side slot).shotsFired rt ac)
        then Phase.finished else g.phase := by
  simp only [resolveGame]
  split_ifs <;> simp

theorem resolveGame_winner (g : Game) (slot : Side) (rt : Outcome)
    (ac : List (Int × Int)) (lt : String) :
    (resolveGame g slot rt ac lt).winner
      = if g.totalCells ≤ countHitSunk (recordShots (g.side slot).shotsFired rt ac)
        then some slot else g.winner := by
  simp only [resolveGame]
  split_ifs <;> simp

theorem resolveGame_log_len (g : Game) (slot : Side) (rt : Outcome)
    (ac : List (Int × Int)) (lt : String) (h : g.log.length ≤ 50) :
    (resolveGame g slot rt ac lt).log.length ≤ 51 := by
  simp only [resolveGame]
  split_ifs with h1 h2 h3 <;>
    simp only [sliceLast, setSide_log, List.length_append, List.length_drop,
      List.length_cons, List.length_nil] at * <;>
    omega

theorem resolveShot_fst (g : Game) (slot : Side) (r c : Int) (rt : Outcome)
    (ac : List (Int × Int)) (lt : String) :
    (resolveShot g slot r c rt ac lt).1 = resolveGame g slot rt ac lt := rfl

theorem resolveShot_snd (g : Game) (slot : Side) (r c : Int) (rt : Outcome)
    (ac : List (Int × Int)) (lt : String) :
    (resolveShot g slot r c rt ac lt).2 = FireEffect.broadcast
      { shooter := slot, r := r, c := c, resultType := rt, affectedCells := ac
        turn := (resolveGame g slot rt ac lt).turn
        phase := (resolveGame g slot rt ac lt).phase
        winner := (resolveGame g slot rt ac lt).winner
        log := sliceLast 10 (resolveGame g slot rt ac lt).log } := rfl

theorem fire_pair_cases (g : Game) (slot : Side) (r c : Int) :
    fire g slot r c = (g, FireEffect.wrongPhase) ∨
    fire g slot r c = (g, FireEffect.notYourTurn) ∨
    fire g slot r c = (g, FireEffect.alreadyShot) ∨
    fire g slot r c = (g, FireEffect.thrown) ∨
    ∃ rt ac lt, fire g slot r c = resolveShot g slot r c rt ac lt := by
  unfold fire
  split_ifs with h1 h2 h3
  · exact Or.inl rfl
  · exact Or.inr (Or.inl rfl)
  · exact Or.inr (Or.inr (Or.inl rfl))
  all_goals
    refine Or.inr (Or.inr (Or.inr ?_))
  all_goals
    repeat' split
  all_goals
    first
      | exact Or.inl rfl
      | exact Or.inr ⟨_, _, _, rfl⟩

theorem keys_set_iff (rec : ShotRec) (k0 k : Int × Int) (v : Outcome) :
    (assocLookup (assocSet rec k0 v) k).isSome ↔
      ((assocLookup rec k).isSome ∨ k = k0) := by
  rw [assocLookup_set]
  by_cases hk : k0 = k
  · subst hk
    simp
  · have hk' : ¬k = k0 := fun h => hk h.symm
    simp [hk, hk']

theorem recordShots_singleton (rec : ShotRec) (v : Outcome) (p : Int × Int) :
    recordShots rec v [p] = assocSet rec p v := rfl

theorem isNone_eq_not_isSome {α : Type} (x : Option α) : x.isNone = !x.isSome := by
  cases x <;> rfl

@[simp]
theorem clearOwnWaiting_bindings (s : ServerState) (sid : String) :
    (clearOwnWaiting s sid).bindings = s.bindings := by
  unfold clearOwnWaiting
  split
  · split <;> rfl
  · rfl

@[simp]
theorem clearOwnWaiting_games (s : ServerState) (sid : String) :
    (clearOwnWaiting s sid).games = s.games := by
  unfold clearOwnWaiting
  split
  · split <;> rfl
  · rfl

@[simp]
theorem clearOwnWaiting_cleanups (s : ServerState) (sid : String) :
    (clearOwnWaiting s sid).cleanups = s.cleanups := by
  unfold clearOwnWaiting
  split
  · split <;> rfl
  · rfl

theorem fire_wrong_phase (g : Game) (slot : Side) (r c : Int)
    (h : g.phase ≠ Phase.battle) : fire g slot r c = (g, FireEffect.wrongPhase) := by
  unfold fire
  rw [if_pos h]

theorem fire_not_your_turn (g : Game) (slot : Side) (r c : Int)
    (hph : g.phase = Phase.battle) (ht : g.turn ≠ slot) :
    fire g slot r c = (g, FireEffect.notYourTurn) := by
  unfold fire
  rw [if_neg (by simp [hph]), if_pos ht]

theorem fire_already_shot (g : Game) (slot : Side) (r c : Int)
    (hph : g.phase = Phase.battle) (ht : g.turn = slot)
    (hdup : (assocLookup (g.side slot).shotsFired (r, c)).isSome) :
    fire g slot r c = (g, FireEffect.alreadyShot) := by
  unfold fire
  rw [if_neg (by simp [hph]), if_neg (by simp [ht]), if_pos hdup]

theorem fire_accepted (g : Game) (slot : Side) (r c : Int) (g' : Game) (res : ShotResult)
    (h : fire g slot r c = (g', FireEffect.broadcast res)) :
    g.phase = Phase.battle ∧ g.turn = slot ∧
      assocLookup (g.side slot).shotsFired (r, c) = none := by
  by_cases h1 : g.phase = Phase.battle
  · by_cases h2 : g.turn = slot
    · by_cases h3 : (assocLookup (g.side slot).shotsFired (r, c)).isSome
      · rw [fire_already_shot g slot r c h1 h2 h3] at h
        simp at h
      · exact ⟨h1, h2, Option.not_isSome_iff_eq_none.mp h3⟩
    · rw [fire_not_your_turn g slot r c h1 h2] at h
      simp at h
  · rw [fire_wrong_phase g slot r c h1] at h
    simp at h

theorem fire_broadcast_resolve (g : Game) (slot : Side) (r c : Int) (g' : Game)
    (res : ShotResult) (h : fire g slot r c = (g', FireEffect.broadcast res)) :
    ∃ ac lt, g' = resolveGame g slot res.resultType ac lt ∧ res.affectedCells = ac := by
  rcases fire_pair_cases g slot r c with hc | hc | hc | hc | ⟨rt, ac, lt, hc⟩ <;>
    rw [hc] at h
  · simp at h
  · simp at h
  · simp at h
  · simp at h
  · simp only [resolveShot, Prod.mk.injEq, FireEffect.broadcast.injEq] at h
    obtain ⟨hg, hres⟩ := h
    subst hres
    exact ⟨ac, lt, hg.symm, rfl⟩

theorem fire_miss_eq (g : Game) (slot : Side) (r c : Int) (ob : Board) (row : List Nat)
    (hph : g.phase = Phase.battle) (ht : g.turn = slot)
    (hfresh : assocLookup (g.side slot).shotsFired (r, c) = none)
    (hb : (g.side slot.opp).board = some ob) (hrow : listGetI ob r = some row)
    (hv : (listGetI row c).getD 0 = 0) :
    fire g slot r c = resolveShot g slot r c Outcome.miss [(r, c)]
      ("💦 " ++ (g.side slot).name ++ " промахнулся (" ++ coordLabel r c ++ ")") := by
  unfold fire
  simp [hph, ht, hfresh, hb, hrow, hv]

theorem fire_hit_eq (g : Game) (slot : Side) (r c : Int) (ob : Board) (row : List Nat)
    (v : Nat) (shps : Ships) (S : List (Int × Int))
    (hph : g.phase = Phase.battle) (ht : g.turn = slot)
    (hfresh : assocLookup (g.side slot).shotsFired (r, c) = none)
    (hb : (g.side slot.opp).board = some ob) (hrow : listGetI ob r = some row)
    (hv : (listGetI row c).getD 0 = v) (hv0 : v ≠ 0)
    (hsh : (g.side slot.opp).ships = some shps)
    (hS : assocLookup shps v = some S) :
    fire g slot r c =
      if S.length ≤ prevOn (g.side slot).shotsFired S + 1 then
        resolveShot g slot r c Outcome.sunk S
          ("💥 " ++ (g.side slot).name ++ " потопил корабль! (" ++ coordLabel r c ++ ")")
      else
        resolveShot g slot r c Outcome.hit [(r, c)]
          ("🎯 " ++ (g.side slot).name ++ " попал! (" ++ coordLabel r c ++ ")") := by
  unfold fire
  simp [hph, ht, hfresh, hb, hrow, hv, hv0, hsh, hS]

theorem fire_broadcast_reads (g : Game) (slot : Side) (r c : Int) (g' : Game)
    (res : ShotResult) (h : fire g slot r c = (g', FireEffect.broadcast res)) :
    ∃ ob row, (g.side slot.opp).board = some ob ∧ listGetI ob r = some row ∧
      ((listGetI row c).getD 0 = 0 ∨
        ((listGetI row c).getD 0 ≠ 0 ∧
          ∃ shps S, (g.side slot.opp).ships = some shps ∧
            assocLookup shps ((listGetI row c).getD 0) = some S)) := by
  obtain ⟨hph, ht, hfresh⟩ := fire_accepted g slot r c g' res h
  unfold fire at h
  rw [if_neg (by simp [hph]), if_neg (by simp [ht]), if_neg (by simp [hfresh])] at h
  cases hb : (g.side slot.opp).board with
  | none =>
    simp only [hb] at h
    simp at h
  | some ob =>
    simp only [hb] at h
    cases hrow : listGetI ob r with
    | none =>
      simp only [hrow] at h
      simp at h
    | some row =>
      simp only [hrow] at h
      by_cases hv : (listGetI row c).getD 0 = 0
      · exact ⟨ob, row, rfl, hrow, Or.inl hv⟩
      · rw [if_pos hv] at h
        cases hsh : (g.side slot.opp).ships with
        | none =>
          simp only [hsh] at h
          simp at h
        | some shps =>
          simp only [hsh] at h
          cases hS : assocLookup shps ((listGetI row c).getD 0) with
          | none =>
            simp only [hS] at h
            simp at h
          | some S =>
            exact ⟨ob, row, rfl, hrow, Or.inr ⟨hv, shps, S, rfl, hS⟩⟩

/-! ### Claim theorems -/

/-- C1: for every accepted fire (one that produces a `shot_result`
broadcast), the session's `turn` is unchanged when the resolved result is
a hit or a sunk, and is set to the opposite side if and only if the
resolved result is a miss. -/
theorem turn_flip_iff_miss (g : Game) (slot : Side) (r c : Int) (g' : Game)
    (res : ShotResult) (h : fire g slot r c = (g', FireEffect.broadcast res)) :
    (res.resultType ≠ Outcome.miss → g'.turn = g.turn) ∧
    (g'.turn = slot.opp ↔ res.resultType = Outcome.miss) := by
  obtain ⟨hph, ht, hfresh⟩ := fire_accepted g slot r c g' res h
  obtain ⟨ac, lt, hg, -⟩ := fire_broadcast_resolve g slot r c g' res h
  subst hg
  rw [resolveGame_turn]
  refine ⟨fun hm => if_neg hm, ?_, fun hm => if_pos hm⟩
  intro he
  by_contra hm
  rw [if_neg hm, ht] at he
  exact Side.opp_ne slot he.symm

/-- Witness for `turn_flip_iff_miss`: in `gW`, `p1` fires at the empty cell
`(5, 5)`; the result is a miss and the turn flips to `p2`. -/
theorem turn_flip_iff_miss_witness :
    (fire gW Side.p1 5 5).1.turn = Side.p1.opp :=
  (turn_flip_iff_miss gW Side.p1 5 5 (fire gW Side.p1 5 5).1
      (resOf (fire gW Side.p1 5 5)) rfl).2.mpr rfl

/-- C2: for every accepted fire that strikes a ship cell (the opponent
board holds a nonzero ship id `v` at `(r, c)`, whose layout entry is `S`):
the result is `sunk` exactly when the count of `S`-cells already carrying
a recorded outcome, plus one, reaches `S.length`; on a sunk an outcome is
recorded at every cell of `S`; on a non-final hit only the fired cell is
recorded, as `hit`. -/
theorem sunk_classification (g : Game) (slot : Side) (r c : Int) (g' : Game)
    (res : ShotResult) (ob : Board) (row : List Nat) (v : Nat) (shps : Ships)
    (S : List (Int × Int))
    (h : fire g slot r c = (g', FireEffect.broadcast res))
    (hb : (g.side slot.opp).board = some ob) (hrow : listGetI ob r = some row)
    (hv : (listGetI row c).getD 0 = v) (hv0 : v ≠ 0)
    (hsh : (g.side slot.opp).ships = some shps)
    (hS : assocLookup shps v = some S) :
    (res.resultType = Outcome.sunk ↔ S.length ≤ prevOn (g.side slot).shotsFired S + 1) ∧
    (res.resultType = Outcome.sunk →
       ∀ p ∈ S, assocLookup ((g'.side slot).shotsFired) p = some Outcome.sunk) ∧
    (res.resultType = Outcome.hit →
       (g'.side slot).shotsFired = assocSet (g.side slot).shotsFired (r, c) Outcome.hit) := by
  obtain ⟨hph, ht, hfresh⟩ := fire_accepted g slot r c g' res h
  rw [fire_hit_eq g slot r c ob row v shps S hph ht hfresh hb hrow hv hv0 hsh hS] at h
  by_cases hcond : S.length ≤ prevOn (g.side slot).shotsFired S + 1
  · rw [if_pos hcond] at h
    simp only [resolveShot, Prod.mk.injEq, FireEffect.broadcast.injEq] at h
    obtain ⟨hg, hres⟩ := h
    subst hg
    subst hres
    refine ⟨by simp [hcond], fun _ p hp => ?_, fun hhit => by simp at hhit⟩
    rw [resolveGame_shots_self, recordShots_lookup]
    simp [hp]
  · rw [if_neg hcond] at h
    simp only [resolveShot, Prod.mk.injEq, FireEffect.broadcast.injEq] at h
    obtain ⟨hg, hres⟩ := h
    subst hg
    subst hres
    refine ⟨by simp [hcond], fun hsunk => by simp at hsunk, fun _ => ?_⟩
    rw [resolveGame_shots_self]
    rfl

/-- Witness for `sunk_classification`: in `gW`, `p1` fires at `(0, 0)`, the
first cell of the four-cell ship `1`; the result is a non-final hit and only
`(0, 0)` is recorded, as `hit`. -/
theorem sunk_classification_witness :
    ((fire gW Side.p1 0 0).1.side Side.p1).shotsFired
      = assocSet (gW.side Side.p1).shotsFired (0, 0) Outcome.hit :=
  (sunk_classification gW Side.p1 0 0 (fire gW Side.p1 0 0).1
      (resOf (fire gW Side.p1 0 0)) board1 [1, 1, 1, 1, 0, 2, 2, 2, 0, 0] 1 ships1
      [(0, 0), (0, 1), (0, 2), (0, 3)]
      rfl rfl rfl rfl (by decide) rfl rfl).2.2 rfl

/-- C3: after every accepted fire, the session's phase is set to `finished`
and `winner` to the firing side if and only if the firing side's count of
`hit`-or-`sunk` entries reaches `totalCells` = 20; below 20 the win check
leaves the phase at `battle` and the winner unchanged. -/
theorem win_check_threshold (g : Game) (slot : Side) (r c : Int) (g' : Game)
    (res : ShotResult) (h : fire g slot r c = (g', FireEffect.broadcast res))
    (h20 : g.totalCells = 20) :
    (20 ≤ countHitSunk ((g'.side slot).shotsFired) →
       g'.phase = Phase.finished ∧ g'.winner = some slot) ∧
    (countHitSunk ((g'.side slot).shotsFired) < 20 →
       g'.phase = Phase.battle ∧ g'.winner = g.winner) := by
  obtain ⟨hph, ht, hfresh⟩ := fire_accepted g slot r c g' res h
  obtain ⟨ac, lt, hg, -⟩ := fire_broadcast_resolve g slot r c g' res h
  subst hg
  rw [resolveGame_shots_self, resolveGame_phase, resolveGame_winner, h20, hph]
  constructor
  · intro hc
    rw [if_pos hc, if_pos hc]
    exact ⟨rfl, rfl⟩
  · intro hc
    rw [if_neg (by omega), if_neg (by omega)]
    exact ⟨rfl, rfl⟩

/-- Witness for `win_check_threshold`: in `gWin` (nineteen fleet cells of
the opponent already hit), `p1` fires at the last fleet cell `(4, 9)`; the
count reaches 20, the phase becomes `finished` and `p1` wins. -/
theorem win_check_threshold_witness :
    (fire gWin Side.p1 4 9).1.phase = Phase.finished ∧
    (fire gWin Side.p1 4 9).1.winner = some Side.p1 :=
  (win_check_threshold gWin Side.p1 4 9 (fire gWin Side.p1 4 9).1
      (resOf (fire gWin Side.p1 4 9)) rfl rfl).1 (by decide)

/-- C4: a fire by the side whose turn it is, during `battle`, at a
coordinate already present in that side's shot record, leaves the session
completely unchanged and emits no broadcast (silent no-op). -/
theorem refire_noop (g : Game) (slot : Side) (r c : Int)
    (hph : g.phase = Phase.battle) (ht : g.turn = slot)
    (hdup : (assocLookup (g.side slot).shotsFired (r, c)).isSome) :
    fire g slot r c = (g, FireEffect.alreadyShot) :=
  fire_already_shot g slot r c hph ht hdup

/-- Witness for `refire_noop`: in `gDup`, `p1` already fired at `(5, 5)`;
refiring there changes nothing and produces the silent `alreadyShot`
effect. -/
theorem refire_noop_witness :
    fire gDup Side.p1 5 5 = (gDup, FireEffect.alreadyShot) :=
  refire_noop gDup Side.p1 5 5 rfl rfl (by decide)

/-- C7 (amended): the shot-entry truncation keeps the log at 50, but the
victory entry is appended after it, so a single `fire` can grow a log of at
most 50 entries to at most 51 — never beyond. -/
theorem fire_log_le_51 (g : Game) (slot : Side) (r c : Int)
    (h : g.log.length ≤ 50) : (fire g slot r c).1.log.length ≤ 51 := by
  rcases fire_pair_cases g slot r c with hc | hc | hc | hc | ⟨rt, ac, lt, hc⟩ <;> rw [hc]
  · simp only []
    omega
  · simp only []
    omega
  · simp only []
    omega
  · simp only []
    omega
  · rw [resolveShot_fst]
    exact resolveGame_log_len g slot rt ac lt h

/-- Witness for `fire_log_le_51` at `gW` (empty log) and the miss at
`(5, 5)`. -/
theorem fire_log_le_51_witness : (fire gW Side.p1 5 5).1.log.length ≤ 51 :=
  fire_log_le_51 gW Side.p1 5 5 (by decide)

/-- C7 (counterexample): in the reachable full game `winTrace`, the session
log holds 51 entries after the winning shot — the victory entry is pushed
after the 50-entry truncation, so the claimed 50-entry cap is violated. -/
theorem winning_shot_log_overflow :
    (assocLookup (run s0 winTrace).games "a_b").map (fun g => g.log.length)
      = some 51 := by decide

/-- C5 (code-level violation): in a reachable trace, the session `"a_b"`
is `finished` after `a` disconnects; a late `player_ready` from `b` then
moves the phase backward to `battle` — the `player_ready` handler has no
phase guard and re-fires the battle-start branch because both ready flags
are still set. -/
theorem late_ready_reverts_finished_phase :
    (assocLookup (run s0 (setupTrace ++ [Event.disc "a"])).games "a_b").map
        Game.phase = some Phase.finished ∧
    (assocLookup (run s0 (setupTrace ++
          [Event.disc "a", Event.ready "b" board1 ships1])).games "a_b").map
        Game.phase = some Phase.battle := by decide

/-- C6: the waiting slot holds at most one participant (it is a single
optional cell), and `join_queue` creates a session exactly when the
arriving connection id differs from the waiting one's: the slot is
consumed, the formerly waiting participant becomes side `p1` and the new
arrival side `p2` of a fresh `placement` session; otherwise no session is
created and the arrival (re)occupies the slot. -/
theorem joinQueue_pairing (s : ServerState) (sid name : String) :
    match s.waitingPlayer with
    | some w =>
      if w.id ≠ sid then
        (joinQueue s sid name).1.waitingPlayer = none ∧
        ∃ g, assocLookup (joinQueue s sid name).1.games (w.id ++ "_" ++ sid)
              = some g ∧
          g.p1.id = w.id ∧ g.p1.name = w.name ∧ g.p2.id = sid ∧
          g.p2.name = name ∧ g.phase = Phase.placement ∧ g.turn = Side.p1 ∧
          g.p1.shotsFired = [] ∧ g.p2.shotsFired = [] ∧ g.totalCells = 20
      else
        (joinQueue s sid name).1.games = s.games ∧
        (joinQueue s sid name).1.waitingPlayer = some ⟨sid, name⟩
    | none =>
      (joinQueue s sid name).1.games = s.games ∧
      (joinQueue s sid name).1.waitingPlayer = some ⟨sid, name⟩ := by
  cases hw : s.waitingPlayer with
  | none => simp [joinQueue, hw]
  | some w =>
    by_cases hid : w.id ≠ sid
    · simp only [if_pos hid]
      refine ⟨by simp [joinQueue, hw, hid, createGame], ?_⟩
      simp only [joinQueue, hw, if_pos hid, createGame]
      exact ⟨_, by rw [assocLookup_set, if_pos rfl],
        rfl, rfl, rfl, rfl, rfl, rfl, rfl, rfl, rfl⟩
    · simp [joinQueue, hw, hid]

/-- C8 (counterexample): the reachable `winTrace` session ends `finished`
by a winning shot, yet no cleanup timer has been scheduled — the `fire`
handler never schedules the deferred removal. -/
theorem win_no_cleanup_scheduled :
    (run s0 winTrace).cleanups = [] ∧
    (assocLookup (run s0 winTrace).games "a_b").map Game.phase
      = some Phase.finished := by decide

/-- C8 (amended): only the disconnect handler schedules the deferred
removal: whenever a disconnecting socket is bound to a registered session,
a 60000 ms cleanup of that session is appended to the pending timers and
the session is `finished` afterwards (forced if it was not already); a
`fire` event never schedules a cleanup. -/
theorem disconnect_schedules_cleanup (s : ServerState) (sid gameId : String)
    (slot : Side) (game : Game)
    (hb : assocLookup s.bindings sid = some (gameId, slot))
    (hg : assocLookup s.games gameId = some game) :
    (disconnect s sid).cleanups = s.cleanups ++ [(gameId, 60000)] ∧
    (assocLookup (disconnect s sid).games gameId).map Game.phase
      = some Phase.finished ∧
    ∀ (sid' : String) (r c : Int),
      (step s (Event.fireAt sid' r c)).cleanups = s.cleanups := by
  refine ⟨?_, ?_, ?_⟩
  · simp only [disconnect, clearOwnWaiting_bindings, clearOwnWaiting_games,
      clearOwnWaiting_cleanups, hb, hg]
  · simp only [disconnect, clearOwnWaiting_bindings, clearOwnWaiting_games,
      clearOwnWaiting_cleanups, hb, hg]
    by_cases hph : game.phase ≠ Phase.finished
    · rw [if_pos hph]
      simp [assocLookup_set]
    · rw [if_neg hph, hg]
      simp [Decidable.not_not.mp hph]
  · intro sid' r c
    simp only [step]
    cases hbb : assocLookup s.bindings sid' with
    | none => rfl
    | some b =>
      obtain ⟨gid, sl⟩ := b
      cases hgg : assocLookup s.games gid with
      | none => simp only [hgg]
      | some g => simp only [hgg]

/-- Witness for `disconnect_schedules_cleanup`: `a` disconnects from the
reachable mid-battle session of `setupTrace`; the 60000 ms cleanup of
`"a_b"` is scheduled. -/
theorem disconnect_schedules_cleanup_witness :
    (disconnect (run s0 setupTrace) "a").cleanups
      = (run s0 setupTrace).cleanups ++ [("a_b", 60000)] :=
  (disconnect_schedules_cleanup (run s0 setupTrace) "a" "a_b" Side.p1
      (gameOf (run s0 setupTrace) "a_b") (by decide) rfl).1

/-- C9 (counterexample): in the reachable mid-battle session of
`setupTrace`, a fire at row 10 — outside the 10-row board — reaches the
unguarded board read and the handler throws (`opponentBoard[10]` is
`undefined`), instead of being dropped or rejected. -/
theorem out_of_range_fire_throws :
    (assocLookup (run s0 setupTrace).games "a_b").map
      (fun g => (fire g Side.p1 10 0).2) = some FireEffect.thrown := by decide

/-- C9 (amended): fires in the wrong phase, out of turn, or at a
repeat-fired cell are silently dropped or answered with `not_your_turn`;
a fire from a socket with no bound session is ignored; and even a fire
whose out-of-board access throws leaves the session state unchanged.  But
out-of-board coordinates are not guarded: the board read may propagate a
thrown error. -/
theorem fire_guard_safety (g : Game) (slot : Side) (r c : Int) :
    (g.phase ≠ Phase.battle → fire g slot r c = (g, FireEffect.wrongPhase)) ∧
    (g.phase = Phase.battle → g.turn ≠ slot →
       fire g slot r c = (g, FireEffect.notYourTurn)) ∧
    (g.phase = Phase.battle → g.turn = slot →
       (assocLookup (g.side slot).shotsFired (r, c)).isSome →
       fire g slot r c = (g, FireEffect.alreadyShot)) ∧
    ((fire g slot r c).2 = FireEffect.thrown → (fire g slot r c).1 = g) ∧
    ∀ (s : ServerState) (sid : String), assocLookup s.bindings sid = none →
      step s (Event.fireAt sid r c) = s := by
  refine ⟨fire_wrong_phase g slot r c, fire_not_your_turn g slot r c,
    fire_already_shot g slot r c, ?_, ?_⟩
  · intro hth
    rcases fire_pair_cases g slot r c with hc | hc | hc | hc | ⟨rt, ac, lt, hc⟩ <;>
      rw [hc]
    rw [hc, resolveShot_snd] at hth
    cases hth
  · intro s sid hnone
    simp [step, hnone]

/-- Witness for `fire_guard_safety`: in the placement-phase session
`gPlace`, a fire is answered with the silent `wrongPhase` drop. -/
theorem fire_guard_safety_witness :
    fire gPlace Side.p1 0 0 = (gPlace, FireEffect.wrongPhase) :=
  (fire_guard_safety gPlace Side.p1 0 0).1 (by decide)

/-- C10: every accepted fire adds exactly one new key — the fired
coordinate — to the firing side's shot record (a sunk only overwrites the
ship's other, already-recorded cells), so the side's count of
`hit`-or-`sunk` entries grows by exactly 1 on a hit or sunk result and by
0 on a miss; the tally never decreases.  `shipOk` is the consistency of
the client-submitted placement at the fired cell. -/
theorem shot_record_monotone (g : Game) (slot : Side) (r c : Int) (g' : Game)
    (res : ShotResult) (h : fire g slot r c = (g', FireEffect.broadcast res))
    (hok : shipOk g slot r c = true) :
    (∀ k : Int × Int, (assocLookup ((g'.side slot).shotsFired) k).isSome ↔
        ((assocLookup ((g.side slot).shotsFired) k).isSome ∨ k = (r, c))) ∧
    countHitSunk ((g'.side slot).shotsFired)
      = countHitSunk ((g.side slot).shotsFired)
        + (if res.resultType = Outcome.miss then 0 else 1) := by
  obtain ⟨hph, ht, hfresh⟩ := fire_accepted g slot r c g' res h
  obtain ⟨ob, row, hb, hrow, hcase⟩ := fire_broadcast_reads g slot r c g' res h
  rcases hcase with hv | ⟨hv0, shps, S, hsh, hS⟩
  · rw [fire_miss_eq g slot r c ob row hph ht hfresh hb hrow hv] at h
    simp only [resolveShot, Prod.mk.injEq, FireEffect.broadcast.injEq] at h
    obtain ⟨hg, hres⟩ := h
    subst hg
    subst hres
    rw [resolveGame_shots_self, recordShots_singleton]
    refine ⟨fun k => keys_set_iff _ _ _ _, ?_⟩
    rw [countHitSunk_set_absent _ _ _ hfresh]
    simp
  · rw [fire_hit_eq g slot r c ob row ((listGetI row c).getD 0) shps S
      hph ht hfresh hb hrow rfl hv0 hsh hS] at h
    have hokS : ((r, c) ∈ S ∧ S.Nodup) ∧
        ∀ (a b : Int), (a, b) ∈ S →
          ¬assocLookup (g.side slot).shotsFired (a, b) = some Outcome.miss := by
      unfold shipOk at hok
      simp only [hb, hrow, hsh, hS] at hok
      simpa [hv0, List.all_eq_true] using hok
    obtain ⟨⟨hmem, hnd⟩, hnomiss⟩ := hokS
    have hR : ∀ p ∈ S, ∀ o, assocLookup (g.side slot).shotsFired p = some o →
        o = Outcome.hit ∨ o = Outcome.sunk := by
      intro p hp o ho
      obtain ⟨pa, pb⟩ := p
      cases o with
      | miss => exact absurd ho (hnomiss pa pb hp)
      | hit => exact Or.inl rfl
      | sunk => exact Or.inr rfl
    by_cases hcond : S.length ≤ prevOn (g.side slot).shotsFired S + 1
    · rw [if_pos hcond] at h
      simp only [resolveShot, Prod.mk.injEq, FireEffect.broadcast.injEq] at h
      obtain ⟨hg, hres⟩ := h
      subst hg
      subst hres
      rw [resolveGame_shots_self]
      have hpart : S.length = prevOn (g.side slot).shotsFired S +
          (S.filter fun p => (assocLookup (g.side slot).shotsFired p).isNone).length := by
        have hsplit := List.length_eq_length_filter_add
          (l := S) (fun p => (assocLookup (g.side slot).shotsFired p).isSome)
        rw [hsplit]
        congr 1
        refine congrArg List.length (List.filter_congr fun p _ => ?_)
        rw [isNone_eq_not_isSome]
      have hmemF : (r, c) ∈ S.filter
          fun p => (assocLookup (g.side slot).shotsFired p).isNone :=
        List.mem_filter.mpr ⟨hmem, by simp [hfresh]⟩
      have hlen1 : (S.filter
          fun p => (assocLookup (g.side slot).shotsFired p).isNone).length = 1 := by
        have hge := List.length_pos_of_mem hmemF
        omega
      constructor
      · intro k
        rw [recordShots_lookup]
        by_cases hk : k ∈ S
        · rw [if_pos hk]
          simp only [Option.isSome_some, true_iff]
          by_cases hkr : (assocLookup (g.side slot).shotsFired k).isSome
          · exact Or.inl hkr
          · refine Or.inr ?_
            have hkF : k ∈ S.filter
                fun p => (assocLookup (g.side slot).shotsFired p).isNone :=
              List.mem_filter.mpr
                ⟨hk, by simp [Option.not_isSome_iff_eq_none.mp hkr]⟩
            obtain ⟨x, hx⟩ := List.length_eq_one.mp hlen1
            rw [hx, List.mem_singleton] at hkF hmemF
            exact hkF.trans hmemF.symm
        · rw [if_neg hk]
          constructor
          · exact Or.inl
          · rintro (hks | hkrc)
            · exact hks
            · exact absurd (hkrc ▸ hmem) hk
      · rw [recordShots_count S _ hnd hR, hlen1]
        simp
    · rw [if_neg hcond] at h
      simp only [resolveShot, Prod.mk.injEq, FireEffect.broadcast.injEq] at h
      obtain ⟨hg, hres⟩ := h
      subst hg
      subst hres
      rw [resolveGame_shots_self, recordShots_singleton]
      refine ⟨fun k => keys_set_iff _ _ _ _, ?_⟩
      rw [countHitSunk_set_absent _ _ _ hfresh]
      simp

/-- Witness for `shot_record_monotone`: in `gHalf` (ship `4`'s cell
`(2, 4)` already hit), `p1` fires at `(2, 5)`, sinking ship `4`; the
hit-or-sunk tally grows by exactly one. -/
theorem shot_record_monotone_witness :
    countHitSunk (((fire gHalf Side.p1 2 5).1.side Side.p1).shotsFired)
      = countHitSunk ((gHalf.side Side.p1).shotsFired)
        + (if (resOf (fire gHalf Side.p1 2 5)).resultType = Outcome.miss
           then 0 else 1) :=
  (shot_record_monotone gHalf Side.p1 2 5 (fire gHalf Side.p1 2 5).1
      (resOf (fire gHalf Side.p1 2 5)) rfl (by decide)).2

end Battleship
